import Mathlib

/-!
Verification of the rtp-stream-cleaner core components.

The Go sources are shallowly embedded: byte strings are `List Nat` (each
element a byte value), machine integers are `Nat` with explicit `% 2^w`
where overflow matters, wall-clock instants are `Int` nanoseconds, and
fallible functions return `Option`.  Each definition mirrors one function
of the repository; names follow the source.
-/

namespace RtpCleaner

/-- Byte access `p[i]` in Go code that has already checked `i < len(p)`;
out-of-range reads (which the source never performs) default to 0. -/
def byteAt (p : List Nat) (i : Nat) : Nat := p.getD i 0

/-- `binary.BigEndian.Uint16(p[i:i+2])`. -/
def be16 (p : List Nat) (i : Nat) : Nat := byteAt p i * 256 + byteAt p (i + 1)

/-- `binary.BigEndian.Uint32(p[i:i+4])`. -/
def be32 (p : List Nat) (i : Nat) : Nat :=
  ((byteAt p i * 256 + byteAt p (i + 1)) * 256 + byteAt p (i + 2)) * 256 + byteAt p (i + 3)

/-- `binary.BigEndian.PutUint16(p[i:i+2], v)`; each stored byte is the
low 8 bits of the corresponding shift, as Go `byte(·)` truncates. -/
def putUint16BE (p : List Nat) (i : Nat) (v : Nat) : List Nat :=
  (p.set i ((v >>> 8) % 256)).set (i + 1) (v % 256)

/-- `binary.BigEndian.PutUint32(p[i:i+4], v)`. -/
def putUint32BE (p : List Nat) (i : Nat) (v : Nat) : List Nat :=
  ((((p.set i ((v >>> 24) % 256)).set (i + 1) ((v >>> 16) % 256)).set
      (i + 2) ((v >>> 8) % 256)).set (i + 3) (v % 256))

/-- `internal/rtpfix.RTPHeader`. -/
structure RTPHeader where
  PT : Nat
  Seq : Nat
  TS : Nat
  SSRC : Nat
  Marker : Bool
  HeaderLen : Nat
  deriving Repr, DecidableEq

/-- Field extraction shared by the success branches of `parseRTPHeader`. -/
def mkRTPHeader (packet : List Nat) (headerLen : Nat) : RTPHeader :=
  { PT := byteAt packet 1 &&& 0x7f
    Seq := be16 packet 2
    TS := be32 packet 4
    SSRC := be32 packet 8
    Marker := byteAt packet 1 &&& 0x80 != 0
    HeaderLen := headerLen }

/-- `internal/rtpfix.parseRTPHeader`. -/
def parseRTPHeader (packet : List Nat) : Option RTPHeader :=
  if packet.length < 12 then none
  else if byteAt packet 0 >>> 6 ≠ 2 then none
  else
    let cc := byteAt packet 0 &&& 0x0f
    let hasExtension := byteAt packet 0 &&& 0x10 != 0
    let headerLen := 12 + cc * 4
    if packet.length < headerLen then none
    else if hasExtension then
      if packet.length < headerLen + 4 then none
      else
        let extLenWords := be16 packet (headerLen + 2)
        let headerLen2 := headerLen + 4 + extLenWords * 4
        if packet.length < headerLen2 then none
        else some (mkRTPHeader packet headerLen2)
    else some (mkRTPHeader packet headerLen)

/-- `internal/rtpfix.H264Info`. -/
structure H264Info where
  IsSlice : Bool
  IsFU : Bool
  FUStart : Bool
  FUEnd : Bool
  NALType : Nat
  IsSPS : Bool
  IsPPS : Bool
  IsIDR : Bool
  deriving Repr, DecidableEq

/-- `internal/rtpfix.parseH264`. -/
def parseH264 (payload : List Nat) : Option H264Info :=
  if payload.length = 0 then none
  else
    let first := byteAt payload 0
    let unitType := first &&& 0x1f
    if unitType = 28 then
      if payload.length < 2 then none
      else
        let fuHeader := byteAt payload 1
        let nalType := fuHeader &&& 0x1f
        some { IsSlice := decide (1 ≤ nalType) && decide (nalType ≤ 5)
               IsFU := true
               FUStart := fuHeader &&& 0x80 != 0
               FUEnd := fuHeader &&& 0x40 != 0
               NALType := nalType
               IsSPS := nalType == 7
               IsPPS := nalType == 8
               IsIDR := nalType == 5 }
    else
      some { IsSlice := decide (1 ≤ unitType) && decide (unitType ≤ 5)
             IsFU := false
             FUStart := false
             FUEnd := false
             NALType := unitType
             IsSPS := unitType == 7
             IsPPS := unitType == 8
             IsIDR := unitType == 5 }

/-- `internal/rtpfix.isFrameStart`. -/
def isFrameStart (info : H264Info) : Bool :=
  if !info.IsSlice then false
  else if info.IsFU then info.FUStart
  else true

/-- `internal/rtpfix.isFrameEnd`. -/
def isFrameEnd (info : H264Info) : Bool :=
  if !info.IsSlice then false
  else if info.IsFU then info.FUEnd
  else true

/-- The spec's well-formedness condition for RTP header parsing (§4.1):
at least 12 bytes, version bits 2, room for the CSRC list and, when the
extension bit is set, for the 4-byte extension header plus the announced
extension words. -/
def rtpHeaderWellFormed (packet : List Nat) : Prop :=
  12 ≤ packet.length ∧
  byteAt packet 0 >>> 6 = 2 ∧
  12 + (byteAt packet 0 &&& 0x0f) * 4 ≤ packet.length ∧
  (byteAt packet 0 &&& 0x10 ≠ 0 →
    12 + (byteAt packet 0 &&& 0x0f) * 4 + 4 +
      be16 packet (12 + (byteAt packet 0 &&& 0x0f) * 4 + 2) * 4 ≤ packet.length)

instance (packet : List Nat) : Decidable (rtpHeaderWellFormed packet) := by
  unfold rtpHeaderWellFormed; infer_instance

/-- The header the spec says a successful parse returns (§3, §4.1),
written from the spec's words: big-endian fields and a header length of
12 + 4·CSRC, extended by 4 + 4·words when the extension bit is set. -/
def rtpHeaderSpec (packet : List Nat) : RTPHeader :=
  let base := 12 + (byteAt packet 0 &&& 0x0f) * 4
  { PT := byteAt packet 1 &&& 0x7f
    Seq := be16 packet 2
    TS := be32 packet 4
    SSRC := be32 packet 8
    Marker := byteAt packet 1 &&& 0x80 != 0
    HeaderLen :=
      if byteAt packet 0 &&& 0x10 ≠ 0 then base + 4 + be16 packet (base + 2) * 4
      else base }

/-- `internal/session.h264Packet`. -/
structure H264Packet where
  header : RTPHeader
  payload : List Nat
  info : H264Info
  deriving Repr, DecidableEq

/-- `internal/session.parseH264Packet`. -/
def parseH264Packet (packet : List Nat) : Option H264Packet :=
  match parseRTPHeader packet with
  | none => none
  | some header =>
    if header.HeaderLen ≥ packet.length then none
    else
      let payload := packet.drop header.HeaderLen
      match parseH264 payload with
      | none => none
      | some info => some { header := header, payload := payload, info := info }

/-! ### Video proxy, fix mode (`internal/session/video_proxy.go`)

The fix pipeline runs single-threaded on the A-leg read loop; its state is
the `videoProxy` fields it touches.  UDP sends are modelled as an output
list of emitted packets (writes are assumed to succeed, as in the unit
tests where `writeToDest` records the packet).  Instants are `Int`
nanoseconds; `time.Duration` values are their nanosecond counts. -/

/-- The video counters touched by the fix pipeline (a slice of
`internal/session.videoCounters`; the A/B input counters are bumped by
the read loops outside the pipeline and are omitted). -/
structure VideoFixCounters where
  bOutPkts : Nat
  bOutBytes : Nat
  framesFlushed : Nat
  forcedFlushes : Nat
  injectedSPS : Nat
  injectedPPS : Nat
  seqDeltaGauge : Nat
  deriving Repr, DecidableEq

/-- All-zero counters of a fresh session. -/
def VideoFixCounters.init : VideoFixCounters :=
  { bOutPkts := 0, bOutBytes := 0, framesFlushed := 0, forcedFlushes := 0
    injectedSPS := 0, injectedPPS := 0, seqDeltaGauge := 0 }

/-- The `videoProxy` fields used by the fix pipeline.  `maxFrameWait` and
`injectCachedSPSPPS` are per-proxy configuration; the rest is mutable
state.  `frameTS`, `currentFrameTS`, `lastOutSeq` and `seqDelta` are kept
reduced modulo 2^32 resp. 2^16 like the Go `uint32`/`uint16` fields. -/
structure VideoFixState where
  maxFrameWait : Int
  injectCachedSPSPPS : Bool
  frameBuffer : List (List Nat)
  frameBufferStart : Int
  frameBufferActive : Bool
  lastFrameSentTime : Int
  frameTS : Nat
  frameTSInitialized : Bool
  currentFrameTS : Nat
  currentFrameTSSet : Bool
  pendingSPS : Option (List Nat)
  pendingPPS : Option (List Nat)
  cachedSPS : Option (List Nat)
  cachedPPS : Option (List Nat)
  seqDelta : Nat
  lastOutSeq : Nat
  hasLastOutSeq : Bool
  counters : VideoFixCounters
  deriving Repr, DecidableEq

/-- A freshly constructed fix-mode proxy: Idle, nothing pending or
cached, timestamps uninitialized, counters zero. -/
def VideoFixState.init (maxFrameWait : Int) (inject : Bool) : VideoFixState :=
  { maxFrameWait := maxFrameWait, injectCachedSPSPPS := inject
    frameBuffer := [], frameBufferStart := 0, frameBufferActive := false
    lastFrameSentTime := 0, frameTS := 0, frameTSInitialized := false
    currentFrameTS := 0, currentFrameTSSet := false
    pendingSPS := none, pendingPPS := none, cachedSPS := none, cachedPPS := none
    seqDelta := 0, lastOutSeq := 0, hasLastOutSeq := false
    counters := VideoFixCounters.init }

/-- `videoProxy.nextFrameTimestamp`.  The Go code computes the increment
as `uint32(dt.Seconds()*90000 + 0.5)` in float64; with `dt` clamped to
[10ms, 100ms] this is half-up rounding of dt·90kHz, embedded here as the
exact integer computation `(dt_ns·18 + 100000) / 200000` =
⌊dt_ns·90000/10^9 + 1/2⌋. -/
def nextFrameTimestamp (s : VideoFixState) (now : Int) (seedPacket : List Nat) :
    VideoFixState × Nat :=
  if !s.frameTSInitialized then
    let s :=
      match parseRTPHeader seedPacket with
      | some header => { s with frameTS := header.TS }
      | none => s
    let s := { s with frameTSInitialized := true, lastFrameSentTime := now }
    (s, s.frameTS)
  else
    let dt := now - s.lastFrameSentTime
    let dt := if dt < 10000000 then (10000000 : Int) else dt
    let dt := if dt > 100000000 then (100000000 : Int) else dt
    let increment := ((dt.toNat * 18 + 100000) / 200000) % 4294967296
    let newTS := (s.frameTS + increment) % 4294967296
    ({ s with frameTS := newTS, lastFrameSentTime := now }, newTS)

/-- `setMarker` (video_proxy.go): sets or clears the RTP marker bit,
bit 7 of byte 1; Go clears with `packet[1] &^= 0x80`, on a byte equal to
`&& 0x7f`. -/
def setMarker (packet : List Nat) (marker : Bool) : List Nat :=
  if packet.length < 2 then packet
  else if marker then packet.set 1 (byteAt packet 1 ||| 0x80)
  else packet.set 1 (byteAt packet 1 &&& 0x7f)

/-- `setTimestamp` (video_proxy.go). -/
def setTimestamp (packet : List Nat) (timestamp : Nat) : List Nat :=
  if packet.length < 8 then packet
  else putUint32BE packet 4 timestamp

/-- `videoProxy.rewriteSeqForOutput`; `uint16` addition wraps mod 2^16. -/
def rewriteSeqForOutput (s : VideoFixState) (packet : List Nat) :
    VideoFixState × List Nat :=
  if packet.length < 4 then (s, packet)
  else
    let seqIn := be16 packet 2
    let seqOut := (seqIn + s.seqDelta) % 65536
    let packet := putUint16BE packet 2 seqOut
    ({ s with lastOutSeq := seqOut, hasLastOutSeq := true }, packet)

/-- `videoProxy.sendPacket`: optional sequence rewrite, then the B-socket
send (modelled as returning the emitted packet) and b_out counter bumps. -/
def sendPacket (s : VideoFixState) (packet : List Nat) : VideoFixState × List Nat :=
  let (s, packet) :=
    if s.injectCachedSPSPPS then rewriteSeqForOutput s packet else (s, packet)
  let s := { s with counters :=
    { s.counters with bOutPkts := s.counters.bOutPkts + 1
                      bOutBytes := s.counters.bOutBytes + packet.length } }
  (s, packet)

/-- The emission loop of `videoProxy.flushFrameBuffer`: index `i` walks
the buffer, `last` is the final index, `frameTS` the frame timestamp. -/
def emitBuffered (s : VideoFixState) (packets : List (List Nat)) (i last frameTS : Nat) :
    VideoFixState × List (List Nat) :=
  match packets with
  | [] => (s, [])
  | packet :: rest =>
    let packet := setMarker packet (i == last)
    let packet := setTimestamp packet frameTS
    let (s, sent) := sendPacket s packet
    let (s, outs) := emitBuffered s rest (i + 1) last frameTS
    (s, sent :: outs)

/-- The frame-timestamp selection at the top of
`videoProxy.flushFrameBuffer`: the current frame timestamp when one was
captured at frame start, otherwise `nextFrameTimestamp` seeded by the
first buffered packet. -/
def flushTSState (s : VideoFixState) (now : Int) : VideoFixState × Nat :=
  if s.currentFrameTSSet then (s, s.currentFrameTS)
  else nextFrameTimestamp s now (s.frameBuffer.headD [])

/-- `videoProxy.flushFrameBuffer`. -/
def flushFrameBuffer (s : VideoFixState) (now : Int) (forced : Bool) :
    VideoFixState × List (List Nat) :=
  if s.frameBuffer.isEmpty then ({ s with frameBufferActive := false }, [])
  else
    let st := flushTSState s now
    let eo := emitBuffered st.1 st.1.frameBuffer 0 (st.1.frameBuffer.length - 1) st.2
    let s := eo.1
    let s := { s with counters :=
      { s.counters with framesFlushed := s.counters.framesFlushed + 1
                        forcedFlushes := s.counters.forcedFlushes + (if forced then 1 else 0) } }
    ({ s with frameBufferActive := false, currentFrameTSSet := false, frameBuffer := [] }, eo.2)

/-- `videoProxy.flushOnTimeout`. -/
def flushOnTimeout (s : VideoFixState) (now : Int) : VideoFixState × List (List Nat) :=
  if !s.frameBufferActive || s.frameBuffer.isEmpty then (s, [])
  else if now - s.frameBufferStart ≤ s.maxFrameWait then (s, [])
  else flushFrameBuffer s now true

/-- `videoProxy.startFrameBuffer`. -/
def startFrameBuffer (s : VideoFixState) (now : Int) (seedPacket : List Nat) :
    VideoFixState :=
  let (s, ts) := nextFrameTimestamp s now seedPacket
  { s with frameBuffer := [], frameBufferStart := now, frameBufferActive := true
           currentFrameTS := ts, currentFrameTSSet := true }

/-- `videoProxy.bufferFramePacket` (the Go copy is value semantics here). -/
def bufferFramePacket (s : VideoFixState) (packet : List Nat) : VideoFixState :=
  { s with frameBuffer := s.frameBuffer ++ [packet] }

/-- `videoProxy.storePendingParameterSet`. -/
def storePendingParameterSet (s : VideoFixState) (packet : List Nat) (isSPS : Bool) :
    VideoFixState :=
  if isSPS then { s with pendingSPS := some packet }
  else { s with pendingPPS := some packet }

/-- `videoProxy.cacheParameterSet`. -/
def cacheParameterSet (s : VideoFixState) (payload : List Nat) (isSPS : Bool) :
    VideoFixState :=
  if isSPS then { s with cachedSPS := some payload }
  else { s with cachedPPS := some payload }

/-- `videoProxy.appendPendingToFrameBuffer`. -/
def appendPendingToFrameBuffer (s : VideoFixState) : VideoFixState :=
  let s :=
    match s.pendingSPS with
    | some sps => { s with frameBuffer := s.frameBuffer ++ [sps], pendingSPS := none }
    | none => s
  match s.pendingPPS with
  | some pps => { s with frameBuffer := s.frameBuffer ++ [pps], pendingPPS := none }
  | none => s

/-- `videoProxy.ensureSeqBaseline`; `seq - 1` on `uint16` wraps. -/
def ensureSeqBaseline (s : VideoFixState) (seq : Nat) : VideoFixState :=
  if s.hasLastOutSeq then s
  else { s with lastOutSeq := (seq + 65535) % 65536, hasLastOutSeq := true }

/-- `videoProxy.sendInjectedPacket`: builds a 12-byte RTP header
(version 2, the frame start packet's PT and SSRC, the current frame
timestamp, sequence `lastOutSeq + 1`) followed by the cached NAL payload,
sends it and bumps the injection counters; `videoSeqDelta` is `Store`d to
the running `seqDelta`. -/
def sendInjectedPacket (s : VideoFixState) (payload : List Nat) (header : RTPHeader) (isSPS : Bool) :
    VideoFixState × List Nat :=
  let seq := (s.lastOutSeq + 1) % 65536
  let ts := s.currentFrameTS
  let ssrc := header.SSRC
  let packet :=
    [0x80, header.PT &&& 0x7f,
     (seq >>> 8) % 256, seq % 256,
     (ts >>> 24) % 256, (ts >>> 16) % 256, (ts >>> 8) % 256, ts % 256,
     (ssrc >>> 24) % 256, (ssrc >>> 16) % 256, (ssrc >>> 8) % 256, ssrc % 256] ++ payload
  let s := { s with counters :=
    { s.counters with bOutPkts := s.counters.bOutPkts + 1
                      bOutBytes := s.counters.bOutBytes + packet.length } }
  let s := { s with lastOutSeq := seq, hasLastOutSeq := true
                    seqDelta := (s.seqDelta + 1) % 65536 }
  let s := { s with counters := { s.counters with seqDeltaGauge := s.seqDelta } }
  let s :=
    if isSPS then
      { s with counters := { s.counters with injectedSPS := s.counters.injectedSPS + 1 } }
    else
      { s with counters := { s.counters with injectedPPS := s.counters.injectedPPS + 1 } }
  (s, packet)

/-- `videoProxy.injectCachedParameterSets`. -/
def injectCachedParameterSets (s : VideoFixState) (header : RTPHeader) :
    VideoFixState × List (List Nat) :=
  if !s.injectCachedSPSPPS then (s, [])
  else if s.pendingSPS.isSome || s.pendingPPS.isSome then (s, [])
  else if s.cachedSPS.isNone && s.cachedPPS.isNone then (s, [])
  else
    let s := ensureSeqBaseline s header.Seq
    let (s, out1) :=
      match s.cachedSPS with
      | some sps =>
        let (s, pkt) := sendInjectedPacket s sps header true
        (s, [pkt])
      | none => (s, [])
    let (s, out2) :=
      match s.cachedPPS with
      | some pps =>
        let (s, pkt) := sendInjectedPacket s pps header false
        (s, [pkt])
      | none => (s, [])
    (s, out1 ++ out2)

/-- The tail of `videoProxy.handleVideoPacket` reached when the packet is
not buffered as part of a frame: the SPS/PPS branch and the final
passthrough (`flushOnTimeout` then `sendPacket`).  `parsed` carries the
parse result when it succeeded and `acc` the output already emitted. -/
def handleVideoPacketTail (s : VideoFixState) (now : Int) (packet : List Nat)
    (parsed : Option H264Packet) (acc : List (List Nat)) :
    VideoFixState × List (List Nat) :=
  match parsed with
  | some pi =>
    if pi.info.IsSPS || pi.info.IsPPS then
      let s := cacheParameterSet s pi.payload pi.info.IsSPS
      let (s, o) := flushOnTimeout s now
      if s.frameBufferActive then (bufferFramePacket s packet, acc ++ o)
      else (storePendingParameterSet s packet pi.info.IsSPS, acc ++ o)
    else
      let (s, o) := flushOnTimeout s now
      let (s, sent) := sendPacket s packet
      (s, acc ++ o ++ [sent])
  | none =>
    let (s, o) := flushOnTimeout s now
    let (s, sent) := sendPacket s packet
    (s, acc ++ o ++ [sent])

/-- `videoProxy.handleVideoPacket` (fix mode, A→B, destination present). -/
def handleVideoPacket (s : VideoFixState) (now : Int) (packet : List Nat) :
    VideoFixState × List (List Nat) :=
  match parseH264Packet packet with
  | some pi =>
    if pi.info.IsSlice then
      let (s, o1) := flushOnTimeout s now
      let (s, o2) :=
        if isFrameStart pi.info then
          let (s, oFlush) :=
            if s.frameBufferActive && !s.frameBuffer.isEmpty then
              flushFrameBuffer s now false
            else (s, [])
          let s := startFrameBuffer s now packet
          let (s, oInject) :=
            if pi.info.IsIDR then injectCachedParameterSets s pi.header else (s, [])
          let s := appendPendingToFrameBuffer s
          (s, oFlush ++ oInject)
        else (s, [])
      if s.frameBufferActive then
        let s := bufferFramePacket s packet
        let (s, o3) :=
          if isFrameEnd pi.info then flushFrameBuffer s now false else (s, [])
        (s, o1 ++ o2 ++ o3)
      else handleVideoPacketTail s now packet (some pi) (o1 ++ o2)
    else handleVideoPacketTail s now packet (some pi) []
  | none => handleVideoPacketTail s now packet none []

/-! ### Port allocator (`internal/session/allocator.go`) -/

/-- `internal/session.PortAllocator`; the Go `inUse map[int]bool` is a
finite set. -/
structure PortAllocator where
  min : Nat
  max : Nat
  available : List Nat
  inUse : Finset Nat
  deriving DecidableEq

/-- The two error returns of `Allocate` (§4.2's InvalidRequest and
NoPortsAvailable). -/
inductive AllocError where
  | invalidRequest
  | noPortsAvailable
  deriving Repr, DecidableEq

/-- `internal/session.NewPortAllocator`; Go takes `int` bounds and
rejects non-positive or inverted ranges. -/
def NewPortAllocator (minPort maxPort : Int) : Option PortAllocator :=
  if minPort ≤ 0 ∨ maxPort ≤ 0 then none
  else if minPort > maxPort then none
  else
    some { min := minPort.toNat, max := maxPort.toNat
           available := List.range' minPort.toNat (maxPort.toNat - minPort.toNat + 1)
           inUse := ∅ }

/-- `PortAllocator.Allocate`. -/
def PortAllocator.Allocate (p : PortAllocator) (count : Int) :
    Except AllocError (List Nat × PortAllocator) :=
  if count ≤ 0 then .error .invalidRequest
  else if (p.available.length : Int) < count then .error .noPortsAvailable
  else
    let ports := p.available.take count.toNat
    .ok (ports, { p with available := p.available.drop count.toNat
                         inUse := p.inUse ∪ ports.toFinset })

/-- One iteration of the loop in `PortAllocator.Release`: skip ports not
in use; remove the port from in-use; if it is out of range stop there,
otherwise also append it to available. -/
def PortAllocator.releaseOne (p : PortAllocator) (port : Nat) : PortAllocator :=
  if port ∉ p.inUse then p
  else if port < p.min ∨ p.max < port then
    { p with inUse := p.inUse.erase port }
  else
    { p with inUse := p.inUse.erase port, available := p.available ++ [port] }

/-- `PortAllocator.Release`: the loop over `ports` followed by
`sort.Ints(p.available)`; sorting is modelled by insertion sort, which
agrees with any correct ascending sort on `Nat`. -/
def PortAllocator.Release (p : PortAllocator) (ports : List Nat) : PortAllocator :=
  let p := ports.foldl PortAllocator.releaseOne p
  { p with available := List.insertionSort (· ≤ ·) p.available }

/-- The allocator states arising in the program: the available list is
strictly ascending (so duplicate-free) and disjoint from the in-use set.
`NewPortAllocator` establishes this and both operations preserve it. -/
def PortAllocator.WF (p : PortAllocator) : Prop :=
  p.available.Sorted (· < ·) ∧ ∀ a ∈ p.available, a ∉ p.inUse

/-- The part of `PortAllocator.WF` that survives the un-sorted middle of
`Release`'s loop: no duplicate available ports, and no available port is
in use. -/
def PortAllocator.releaseInv (p : PortAllocator) : Prop :=
  p.available.Nodup ∧ ∀ a ∈ p.available, a ∉ p.inUse

/-! ### Session manager (`internal/session/manager.go`) -/

/-- `net.UDPAddr` as the video/audio destination value (zone omitted;
cloning is value copying here). -/
structure UDPAddr where
  ip : String
  port : Nat
  deriving Repr, DecidableEq

/-- `internal/session.Media`. -/
structure Media where
  aPort : Nat
  bPort : Nat
  rtpEngineDest : Option UDPAddr
  enabled : Bool
  disabledReason : String
  deriving Repr, DecidableEq

/-- The destination-related fields of `internal/session.Session`: the
two `Media` blocks plus the atomic mirrors (`audioDest`, `audioEnabled`,
`audioDisabledReason` and the video counterparts) that the proxies read. -/
structure SessionDests where
  audio : Media
  video : Media
  audioDestAtomic : Option UDPAddr
  videoDestAtomic : Option UDPAddr
  audioEnabledAtomic : Bool
  videoEnabledAtomic : Bool
  audioDisabledReasonAtomic : String
  videoDisabledReasonAtomic : String
  deriving Repr, DecidableEq

/-- `internal/session.applyRTPDest` (the session-non-nil body). -/
def applyRTPDest (s : SessionDests) (audioDest videoDest : Option UDPAddr) :
    SessionDests :=
  let s :=
    match audioDest with
    | none => s
    | some dest =>
      if dest.port = 0 then
        { s with
          audio := { s.audio with rtpEngineDest := none, enabled := false,
                                  disabledReason := "rtpengine_port_0" },
          audioEnabledAtomic := false,
          audioDisabledReasonAtomic := "rtpengine_port_0",
          audioDestAtomic := none }
      else
        { s with
          audio := { s.audio with rtpEngineDest := some dest, enabled := true,
                                  disabledReason := "" },
          audioEnabledAtomic := true,
          audioDisabledReasonAtomic := "",
          audioDestAtomic := some dest }
  match videoDest with
  | none => s
  | some dest =>
    if dest.port = 0 then
      { s with
        video := { s.video with rtpEngineDest := none, enabled := false,
                                disabledReason := "rtpengine_port_0" },
        videoEnabledAtomic := false,
        videoDisabledReasonAtomic := "rtpengine_port_0",
        videoDestAtomic := none }
    else
      { s with
        video := { s.video with rtpEngineDest := some dest, enabled := true,
                                disabledReason := "" },
        videoEnabledAtomic := true,
        videoDisabledReasonAtomic := "",
        videoDestAtomic := some dest }

/-- The `Media` blocks `createWithDest` builds before applying initial
destinations: allocated ports, enabled, empty reason, no destination. -/
def initialMedia (aPort bPort : Nat) : Media :=
  { aPort := aPort, bPort := bPort, rtpEngineDest := none
    enabled := true, disabledReason := "" }

/-- §3's Media invariant: a disabled leg stores no destination. -/
def mediaDisabledInvariant (m : Media) : Prop :=
  m.enabled = false → m.rtpEngineDest = none

/-- A session's identity and idle-tracking state as `removeIdleSessions`
sees it: the id and the `lastActivityNsec` atomic (0 encodes the zero
`time.Time`, i.e. never marked active). -/
structure IdleSession where
  id : String
  lastActivityNsec : Int
  deriving Repr, DecidableEq

/-- The expiry test inside `Manager.removeIdleSessions`: a zero last
activity is replaced by `now`, then `now.Sub(last) >= idleTimeout`. -/
def sessionIdleExpired (idleTimeout now lastNsec : Int) : Bool :=
  let last := if lastNsec = 0 then now else lastNsec
  decide (idleTimeout ≤ now - last)

/-- `Manager.removeIdleSessions` restricted to its effect on the session
table (state transition and proxy teardown of the removed sessions are
outside the table). -/
def removeIdleSessions (idleTimeout : Int) (now : Int) (sessions : List IdleSession) :
    List IdleSession :=
  if idleTimeout ≤ 0 then sessions
  else sessions.filter (fun s => !sessionIdleExpired idleTimeout now s.lastActivityNsec)

/-- `Manager.Cleanup`: delegates to `removeIdleSessions`. -/
def Cleanup (idleTimeout : Int) (now : Int) (sessions : List IdleSession) :
    List IdleSession :=
  removeIdleSessions idleTimeout now sessions

/-- `encoding/hex`'s digit table lookup: `"0123456789abcdef"[n]`. -/
def hexDigitChar (n : Nat) : Char :=
  if n < 10 then Char.ofNat (48 + n) else Char.ofNat (87 + n % 16)

/-- `hex.EncodeToString`: two lowercase digits per byte, high nibble
first (`b >> 4`, then `b & 0x0f`). -/
def hexEncode (bytes : List Nat) : List Char :=
  bytes.foldr (fun b acc => hexDigitChar ((b % 256) >>> 4) :: hexDigitChar (b &&& 0x0f) :: acc) []

/-- `Manager.generateID`.  The `crypto/rand.Read` outcome is passed in:
`some bytes` is a successful read of the 6-byte buffer, `none` the
entropy failure whose fallback is "S-" and the nanosecond timestamp. -/
def generateID (entropy : Option (List Nat)) (nowUnixNano : Int) : String :=
  match entropy with
  | none => "S-" ++ toString nowUnixNano
  | some bytes => "S-" ++ String.mk (hexEncode bytes)

/-- The collision loop in `createWithDest`: keep regenerating while the
id is already a key of the session table.  `candidates` is the stream of
ids `generateID` produces (the first element is the id generated at
session construction). -/
def resolveIDCollision (existing : List String) : List String → Option String
  | [] => none
  | c :: cs => if existing.contains c then resolveIDCollision existing cs else some c

/-! ### Observations and concrete scenarios -/

/-- The RTP marker bit of a packet: bit 7 of byte 1. -/
def markerBit (p : List Nat) : Bool := byteAt p 1 &&& 0x80 != 0

/-- A minimal RTP packet: version 2, payload type 96, marker clear,
SSRC 5, with the given sequence, timestamp and payload. -/
def mkTestPacket (seq ts : Nat) (payload : List Nat) : List Nat :=
  [0x80, 96, (seq >>> 8) % 256, seq % 256,
   (ts >>> 24) % 256, (ts >>> 16) % 256, (ts >>> 8) % 256, ts % 256,
   0, 0, 0, 5] ++ payload

/-- Scenario S4's SPS packet: payload `0x67`, seq 10, ts 9000. -/
def s4SPSPacket : List Nat := mkTestPacket 10 9000 [0x67]

/-- Scenario S4's PPS packet: payload `0x68`, seq 11, ts 9000. -/
def s4PPSPacket : List Nat := mkTestPacket 11 9000 [0x68]

/-- Scenario S4's IDR packet: payload `0x65`, seq 12, ts 9000. -/
def s4IDRPacket : List Nat := mkTestPacket 12 9000 [0x65]

/-- Scenario S4 as the claim states it: injection enabled, pipeline
Idle, the SPS, PPS and IDR packets fed through `handleVideoPacket` in
order; result state paired with the concatenated output. -/
def s4PipelineRun : VideoFixState × List (List Nat) :=
  let r1 := handleVideoPacket (VideoFixState.init 120000000 true) 0 s4SPSPacket
  let r2 := handleVideoPacket r1.1 0 s4PPSPacket
  let r3 := handleVideoPacket r2.1 0 s4IDRPacket
  (r3.1, r1.2 ++ r2.2 ++ r3.2)

/-- Scenario S4 as the unit test
(`TestVideoProxyInjectCachedSPSPPSOnIDR`) stages it: the SPS and PPS
payloads are placed in the cache only (no pending parameter sets), then
the IDR packet alone is fed through `handleVideoPacket`. -/
def s4CachedRun : VideoFixState × List (List Nat) :=
  handleVideoPacket
    (cacheParameterSet (cacheParameterSet (VideoFixState.init 120000000 true) [0x67] true)
      [0x68] false)
    0 s4IDRPacket

/-- A fix-mode state mid-assembly, used to witness the flush theorems:
two buffered packets of one frame, frame timestamp 7000 captured. -/
def witnessFlushState : VideoFixState :=
  { VideoFixState.init 120000000 false with
      frameBuffer := [mkTestPacket 1 9000 [0x7c, 0x85], mkTestPacket 2 9001 [0x7c, 0x45]]
      frameBufferActive := true
      frameTSInitialized := true
      frameTS := 7000
      currentFrameTS := 7000
      currentFrameTSSet := true }

/-- A concrete allocator over the spec's S5 range [10000..10002] with
port 10001 currently in use, to witness the allocator theorem. -/
def witnessAllocator : PortAllocator :=
  { min := 10000, max := 10002, available := [10000, 10002], inUse := {10001} }

/-- A concrete session used to witness the destination-update theorem:
both legs enabled, no destinations stored yet. -/
def witnessSession : SessionDests :=
  { audio := initialMedia 1000 1001, video := initialMedia 1002 1003,
    audioDestAtomic := none, videoDestAtomic := none,
    audioEnabledAtomic := true, videoEnabledAtomic := true,
    audioDisabledReasonAtomic := "", videoDisabledReasonAtomic := "" }

/-! ## Theorems -/

/-- C4. RTP header parsing: for every byte string, parse succeeds iff the
packet has ≥ 12 bytes, version bits equal 2, length ≥ 12 + 4·CSRC_count,
and, when the extension bit is set, length additionally covers the 4-byte
extension header plus 4·extension_words bytes (extension words read
big-endian from bytes [header+2..header+4]); on success it returns payload
type, marker, big-endian sequence, timestamp, SSRC, and the computed
header length; on any length/version violation it fails. -/
theorem parseRTPHeader_characterization (packet : List Nat) :
    ((parseRTPHeader packet).isSome ↔ rtpHeaderWellFormed packet) ∧
    (∀ h, parseRTPHeader packet = some h → h = rtpHeaderSpec packet) := by
  simp only [parseRTPHeader, rtpHeaderWellFormed, rtpHeaderSpec, mkRTPHeader]
  split_ifs with h12 hver hbase hext hext4 hwords <;> (simp_all; try omega)

/-- Witness for C4 at a concrete 12-byte packet. -/
theorem parseRTPHeader_characterization_witness :
    (parseRTPHeader [0x80, 96, 0, 1, 0, 0, 3, 232, 0, 0, 0, 5]).isSome ∧
    { PT := 96, Seq := 1, TS := 1000, SSRC := 5, Marker := false,
      HeaderLen := 12 : RTPHeader } =
      rtpHeaderSpec [0x80, 96, 0, 1, 0, 0, 3, 232, 0, 0, 0, 5] :=
  ⟨((parseRTPHeader_characterization
      [0x80, 96, 0, 1, 0, 0, 3, 232, 0, 0, 0, 5]).1).mpr (by decide),
   (parseRTPHeader_characterization
      [0x80, 96, 0, 1, 0, 0, 3, 232, 0, 0, 0, 5]).2 _ (by decide)⟩

/-- C10. Parser totality and payload-slice safety: the embedded parsers
are total functions; whenever `parseRTPHeader` succeeds the returned
header length satisfies 12 ≤ HeaderLen ≤ packet length, and whenever
`parseH264Packet` succeeds (which additionally requires
HeaderLen < packet length) the payload slice `packet[HeaderLen:]` is in
bounds and non-empty. -/
theorem parser_slice_safety :
    (∀ packet h, parseRTPHeader packet = some h →
      12 ≤ h.HeaderLen ∧ h.HeaderLen ≤ packet.length) ∧
    (∀ packet q, parseH264Packet packet = some q →
      q.header.HeaderLen < packet.length ∧
      q.payload = packet.drop q.header.HeaderLen ∧
      q.payload.length = packet.length - q.header.HeaderLen ∧
      q.payload ≠ []) := by
  have hdr : ∀ packet h, parseRTPHeader packet = some h →
      12 ≤ h.HeaderLen ∧ h.HeaderLen ≤ packet.length := by
    intro packet h
    simp only [parseRTPHeader, mkRTPHeader]
    split_ifs <;> intro hsome <;> (simp_all; try (cases hsome; simp; omega))
  refine ⟨hdr, ?_⟩
  intro packet q
  simp only [parseH264Packet]
  cases hh : parseRTPHeader packet with
  | none => simp
  | some header =>
    simp only []
    split_ifs with hlen
    · simp
    · cases hp : parseH264 (packet.drop header.HeaderLen) with
      | none => simp
      | some info =>
        intro hsome
        cases hsome
        have hbound := hdr packet header hh
        have hlt : header.HeaderLen < packet.length := by omega
        refine ⟨hlt, rfl, by simp [List.length_drop], ?_⟩
        apply List.ne_nil_of_length_pos
        rw [List.length_drop]
        omega

/-- Witness for C10 at a concrete packet with one payload byte. -/
theorem parser_slice_safety_witness :
    (12 ≤ (12 : Nat) ∧ (12 : Nat) ≤ 13) ∧
    ((12 : Nat) < 13 ∧
      ([101] : List Nat) = List.drop 12 [0x80, 96, 0, 1, 0, 0, 3, 232, 0, 0, 0, 5, 0x65] ∧
      ([101] : List Nat).length = 13 - 12 ∧ ([101] : List Nat) ≠ []) :=
  ⟨parser_slice_safety.1 [0x80, 96, 0, 1, 0, 0, 3, 232, 0, 0, 0, 5, 0x65]
      { PT := 96, Seq := 1, TS := 1000, SSRC := 5, Marker := false, HeaderLen := 12 }
      (by decide),
   parser_slice_safety.2 [0x80, 96, 0, 1, 0, 0, 3, 232, 0, 0, 0, 5, 0x65]
      { header := { PT := 96, Seq := 1, TS := 1000, SSRC := 5, Marker := false,
                    HeaderLen := 12 },
        payload := [101],
        info := { IsSlice := true, IsFU := false, FUStart := false, FUEnd := false,
                  NALType := 5, IsSPS := false, IsPPS := false, IsIDR := true } }
      (by decide)⟩

/-- C5. H.264 classification and frame boundaries: for every non-empty
payload, nal_type is the low 5 bits of byte 0; when that value is 28
(FU-A) the classifier requires ≥ 2 bytes (failing on a 1-byte input),
sets fu_start from bit 7 and fu_end from bit 6 of byte 1 and reports
nal_type as the low 5 bits of byte 1; is_sps ⇔ nal_type=7, is_pps ⇔ 8,
is_idr ⇔ 5, is_slice ⇔ nal_type ∈ 1..5; empty input fails; and
is_frame_start(info) = is_slice ∧ (¬is_fu ∨ fu_start),
is_frame_end(info) = is_slice ∧ (¬is_fu ∨ fu_end), so a single-NAL slice
is simultaneously start and end. -/
theorem parseH264_classification :
    (∀ payload : List Nat,
      ((parseH264 payload).isSome ↔
        payload ≠ [] ∧ (byteAt payload 0 &&& 0x1f = 28 → 2 ≤ payload.length)) ∧
      (∀ info, parseH264 payload = some info →
        info.IsFU = (byteAt payload 0 &&& 0x1f == 28) ∧
        info.NALType =
          (if byteAt payload 0 &&& 0x1f = 28 then byteAt payload 1 &&& 0x1f
           else byteAt payload 0 &&& 0x1f) ∧
        (info.IsFU = true →
          info.FUStart = (byteAt payload 1 &&& 0x80 != 0) ∧
          info.FUEnd = (byteAt payload 1 &&& 0x40 != 0)) ∧
        (info.IsSPS = true ↔ info.NALType = 7) ∧
        (info.IsPPS = true ↔ info.NALType = 8) ∧
        (info.IsIDR = true ↔ info.NALType = 5) ∧
        (info.IsSlice = true ↔ 1 ≤ info.NALType ∧ info.NALType ≤ 5))) ∧
    (∀ info : H264Info,
      isFrameStart info = (info.IsSlice && (!info.IsFU || info.FUStart)) ∧
      isFrameEnd info = (info.IsSlice && (!info.IsFU || info.FUEnd))) ∧
    (∀ info : H264Info, info.IsSlice = true → info.IsFU = false →
      isFrameStart info = true ∧ isFrameEnd info = true) := by
  refine ⟨?_, ?_, ?_⟩
  · intro payload
    constructor
    · have hne : (payload ≠ []) ↔ payload.length ≠ 0 := by
        simp [List.length_eq_zero]
      rw [hne]
      simp only [parseH264]
      split_ifs with hnil h28 h2 <;> (simp_all; try omega)
    · intro info
      simp only [parseH264]
      split_ifs <;> intro hsome <;>
        first
        | exact hsome.elim
        | (injection hsome with h; subst h; simp_all)
  · intro info
    rcases info with ⟨slice, fu, fs, fe, nt, sps, pps, idr⟩
    cases slice <;> cases fu <;> simp [isFrameStart, isFrameEnd]
  · intro info hslice hfu
    rcases info with ⟨slice, fu, fs, fe, nt, sps, pps, idr⟩
    simp_all [isFrameStart, isFrameEnd]

/-- Witness for C5's quantified parts at a one-byte IDR payload and its
classification. -/
theorem parseH264_classification_witness :
    ((parseH264 [0x65]).isSome ↔
      ([0x65] : List Nat) ≠ [] ∧ (byteAt [0x65] 0 &&& 0x1f = 28 → 2 ≤ ([0x65] : List Nat).length)) ∧
    (isFrameStart { IsSlice := true, IsFU := false, FUStart := false, FUEnd := false,
                    NALType := 5, IsSPS := false, IsPPS := false, IsIDR := true } = true ∧
     isFrameEnd { IsSlice := true, IsFU := false, FUStart := false, FUEnd := false,
                  NALType := 5, IsSPS := false, IsPPS := false, IsIDR := true } = true) :=
  ⟨(parseH264_classification.1 [0x65]).1,
   parseH264_classification.2.2
     { IsSlice := true, IsFU := false, FUStart := false, FUEnd := false,
       NALType := 5, IsSPS := false, IsPPS := false, IsIDR := true }
     (by decide) (by decide)⟩

/-- C8. Idle reaping: for every session table and instant now, the
synchronous Cleanup(now) with idle_timeout > 0 removes exactly the
sessions whose (now − last_activity) ≥ idle_timeout, treating a zero
last_activity as now (so such sessions are preserved); all other
sessions remain in the table; with idle_timeout ≤ 0 no session is
removed. -/
theorem cleanup_removes_exactly_idle (idleTimeout now : Int) (sessions : List IdleSession) :
    (0 < idleTimeout →
      (∀ s, s ∈ Cleanup idleTimeout now sessions ↔
        s ∈ sessions ∧
          ¬(idleTimeout ≤ now - (if s.lastActivityNsec = 0 then now else s.lastActivityNsec))) ∧
      (∀ s, s ∈ sessions → s.lastActivityNsec = 0 →
        s ∈ Cleanup idleTimeout now sessions)) ∧
    (idleTimeout ≤ 0 → Cleanup idleTimeout now sessions = sessions) := by
  constructor
  · intro hpos
    have hne : ¬ idleTimeout ≤ 0 := by omega
    constructor
    · intro s
      simp [Cleanup, removeIdleSessions, hne, sessionIdleExpired, List.mem_filter]
    · intro s hs h0
      simp only [Cleanup, removeIdleSessions, if_neg hne, List.mem_filter]
      refine ⟨hs, ?_⟩
      simp [sessionIdleExpired, h0]
      omega
  · intro hle
    simp [Cleanup, removeIdleSessions, hle]

/-- Witness for C8 at a three-session table: the stale session is
removed, the fresh and the never-active sessions remain. -/
theorem cleanup_removes_exactly_idle_witness :
    ((⟨"stale", 10⟩ : IdleSession) ∈
        Cleanup 5 100 [⟨"stale", 10⟩, ⟨"fresh", 99⟩, ⟨"new", 0⟩] ↔
      (⟨"stale", 10⟩ : IdleSession) ∈
          ([⟨"stale", 10⟩, ⟨"fresh", 99⟩, ⟨"new", 0⟩] : List IdleSession) ∧
        ¬((5 : Int) ≤ 100 - (if (10 : Int) = 0 then (100 : Int) else 10))) ∧
    (⟨"new", 0⟩ : IdleSession) ∈ Cleanup 5 100 [⟨"stale", 10⟩, ⟨"fresh", 99⟩, ⟨"new", 0⟩] :=
  ⟨((cleanup_removes_exactly_idle 5 100
        [⟨"stale", 10⟩, ⟨"fresh", 99⟩, ⟨"new", 0⟩]).1 (by decide)).1 ⟨"stale", 10⟩,
   ((cleanup_removes_exactly_idle 5 100
        [⟨"stale", 10⟩, ⟨"fresh", 99⟩, ⟨"new", 0⟩]).1 (by decide)).2 ⟨"new", 0⟩
      (by decide) (by decide)⟩

/-- C7. Media disable invariant: updating a media leg with a destination
whose port is 0 clears that leg's stored destination, sets enabled=false
and disabled_reason="rtpengine_port_0"; updating with a nonzero port
stores a cloned destination, sets enabled=true and clears the reason; a
nil destination leaves the other leg untouched; and each Media built at
create or rewritten by an update satisfies: enabled=false implies
rtp_engine_dest is cleared. -/
theorem applyRTPDest_disable_semantics (s : SessionDests)
    (audioDest videoDest : Option UDPAddr) :
    (∀ d, audioDest = some d → d.port = 0 →
      (applyRTPDest s audioDest videoDest).audio.rtpEngineDest = none ∧
      (applyRTPDest s audioDest videoDest).audio.enabled = false ∧
      (applyRTPDest s audioDest videoDest).audio.disabledReason = "rtpengine_port_0") ∧
    (∀ d, audioDest = some d → d.port ≠ 0 →
      (applyRTPDest s audioDest videoDest).audio.rtpEngineDest = some d ∧
      (applyRTPDest s audioDest videoDest).audio.enabled = true ∧
      (applyRTPDest s audioDest videoDest).audio.disabledReason = "") ∧
    (∀ d, videoDest = some d → d.port = 0 →
      (applyRTPDest s audioDest videoDest).video.rtpEngineDest = none ∧
      (applyRTPDest s audioDest videoDest).video.enabled = false ∧
      (applyRTPDest s audioDest videoDest).video.disabledReason = "rtpengine_port_0") ∧
    (∀ d, videoDest = some d → d.port ≠ 0 →
      (applyRTPDest s audioDest videoDest).video.rtpEngineDest = some d ∧
      (applyRTPDest s audioDest videoDest).video.enabled = true ∧
      (applyRTPDest s audioDest videoDest).video.disabledReason = "") ∧
    (audioDest = none → (applyRTPDest s audioDest videoDest).audio = s.audio) ∧
    (videoDest = none → (applyRTPDest s audioDest videoDest).video = s.video) ∧
    (mediaDisabledInvariant s.audio →
      mediaDisabledInvariant (applyRTPDest s audioDest videoDest).audio) ∧
    (mediaDisabledInvariant s.video →
      mediaDisabledInvariant (applyRTPDest s audioDest videoDest).video) ∧
    (∀ ap bp, mediaDisabledInvariant (initialMedia ap bp)) := by
  rcases audioDest with _ | a <;> rcases videoDest with _ | v <;>
    simp only [applyRTPDest, mediaDisabledInvariant, initialMedia] <;>
    (try split_ifs) <;> simp_all

/-- Witness for C7: disabling video with port 0 while leaving audio
untouched on a concrete session. -/
theorem applyRTPDest_disable_semantics_witness :
    ((applyRTPDest witnessSession none (some ⟨"10.0.0.1", 0⟩)).video.rtpEngineDest = none ∧
      (applyRTPDest witnessSession none (some ⟨"10.0.0.1", 0⟩)).video.enabled = false ∧
      (applyRTPDest witnessSession none
          (some ⟨"10.0.0.1", 0⟩)).video.disabledReason = "rtpengine_port_0") ∧
    (applyRTPDest witnessSession none (some ⟨"10.0.0.1", 0⟩)).audio = witnessSession.audio := by
  refine ⟨?_, ?_⟩
  · exact (applyRTPDest_disable_semantics witnessSession none
      (some ⟨"10.0.0.1", 0⟩)).2.2.1 ⟨"10.0.0.1", 0⟩ rfl rfl
  · exact (applyRTPDest_disable_semantics witnessSession none
      (some ⟨"10.0.0.1", 0⟩)).2.2.2.2.1 rfl

/-- C9 counterexample: the id generated from a successful 6-byte entropy
read is "S-" followed by 12 hex digits (48 random bits), not by the 24
hex digits a 96-bit value would encode to. -/
theorem sessionID_not_96_bit :
    generateID (some [0, 0, 0, 0, 0, 0]) 0 = "S-000000000000" ∧
    (generateID (some [0, 0, 0, 0, 0, 0]) 0).length = 14 ∧ (14 : Nat) ≠ 2 + 24 := by
  refine ⟨by decide, by decide, by decide⟩

/-- C9 (amended). Session id generation: every id produced by Create is
a 48-bit (6 random bytes) value encoded as hex with the prefix "S-"
(except the entropy-failure fallback, which is "S-" followed by a
nanosecond timestamp), and on collision with an existing id a new id is
generated until unique (the returned id is the first generated candidate
not present in the table). -/
theorem sessionID_format_and_collision_retry :
    (∀ (bytes : List Nat) (t : Int), bytes.length = 6 →
      generateID (some bytes) t = "S-" ++ String.mk (hexEncode bytes) ∧
      (generateID (some bytes) t).length = 14) ∧
    (∀ t : Int, generateID none t = "S-" ++ toString t) ∧
    (∀ (existing cs : List String) (id : String),
      resolveIDCollision existing cs = some id →
      existing.contains id = false ∧
      ∃ pre suf, cs = pre ++ id :: suf ∧ ∀ c ∈ pre, existing.contains c = true) := by
  have hlen : ∀ bytes : List Nat, (hexEncode bytes).length = 2 * bytes.length := by
    intro bytes
    induction bytes with
    | nil => rfl
    | cons b rest ih => simp [hexEncode] at ih ⊢; omega
  refine ⟨?_, fun _ => rfl, ?_⟩
  · intro bytes t hb
    refine ⟨rfl, ?_⟩
    show ("S-" ++ String.mk (hexEncode bytes)).length = 14
    rw [String.length_append]
    have : (String.mk (hexEncode bytes)).length = (hexEncode bytes).length := rfl
    rw [this, hlen, hb]
    decide
  · intro existing cs
    induction cs with
    | nil => intro id h; exact absurd h (by simp [resolveIDCollision])
    | cons c rest ih =>
      intro id h
      by_cases hc : existing.contains c = true
      · rw [resolveIDCollision, if_pos hc] at h
        obtain ⟨h1, pre, suf, heq, hall⟩ := ih id h
        refine ⟨h1, c :: pre, suf, by simp [heq], ?_⟩
        intro x hx
        rcases List.mem_cons.mp hx with hx | hx
        · exact hx ▸ hc
        · exact hall x hx
      · rw [resolveIDCollision, if_neg hc] at h
        injection h with h
        subst h
        exact ⟨by simpa using hc, [], rest, rfl, by simp⟩

/-- Witness for C9's amended statement on concrete bytes and a concrete
collision. -/
theorem sessionID_format_witness :
    (generateID (some [0x0a, 0xbb, 0x01, 0x02, 0x03, 0xff]) 0 =
      "S-" ++ String.mk (hexEncode [0x0a, 0xbb, 0x01, 0x02, 0x03, 0xff]) ∧
     (generateID (some [0x0a, 0xbb, 0x01, 0x02, 0x03, 0xff]) 0).length = 14) ∧
    (["S-aa"] : List String).contains "S-bb" = false ∧
    ∃ pre suf, (["S-aa", "S-bb"] : List String) = pre ++ "S-bb" :: suf ∧
      ∀ c ∈ pre, (["S-aa"] : List String).contains c = true :=
  ⟨sessionID_format_and_collision_retry.1 [0x0a, 0xbb, 0x01, 0x02, 0x03, 0xff] 0 (by decide),
   (sessionID_format_and_collision_retry.2.2 ["S-aa"] ["S-aa", "S-bb"] "S-bb" (by decide)).1,
   (sessionID_format_and_collision_retry.2.2 ["S-aa"] ["S-aa", "S-bb"] "S-bb" (by decide)).2⟩

/-- C3 counterexample: feeding the S4 packet sequence (SPS seq 10, PPS
seq 11, IDR seq 12, injection enabled, pipeline Idle) through
`handleVideoPacket` leaves injected_sps = injected_pps = seq_delta = 0 —
the SPS and PPS are held pending and prepended to the frame, so the
injection path (which requires no pending parameter sets) never runs,
contradicting the claimed counters injected_sps=1, injected_pps=1,
seq_delta=2. -/
theorem s4_as_stated_fails :
    s4PipelineRun.1.counters.injectedSPS = 0 ∧
    s4PipelineRun.1.counters.injectedPPS = 0 ∧
    s4PipelineRun.1.counters.seqDeltaGauge = 0 ∧
    ¬(s4PipelineRun.1.counters.injectedSPS = 1 ∧
      s4PipelineRun.1.counters.injectedPPS = 1 ∧
      s4PipelineRun.1.counters.seqDeltaGauge = 2) := by
  decide

/-- C3 (amended). With injection enabled and the pipeline Idle, feeding
SPS (0x67, seq 10), PPS (0x68, seq 11) and a single-NAL IDR (0x65,
seq 12), all with timestamp 9000, produces exactly three output packets
with payloads 0x67, 0x68, 0x65 in order, strictly consecutive sequence
numbers (10, 11, 12), all timestamps equal to the frame timestamp and
the marker only on the last — but via the pending path, leaving
injected_sps=0, injected_pps=0, seq_delta=0.  The claimed counters
(1, 1, 2) arise when the parameter sets are cached without being
pending, as in the repository's injection unit test: caching the SPS and
PPS payloads and feeding only the IDR yields output SPS, PPS, IDR with
consecutive sequence numbers 12, 13, 14, identical timestamps 9000,
marker on the last, injected_sps=1, injected_pps=1, seq_delta=2. -/
theorem s4_injection_scenarios :
    (s4PipelineRun.2.map (fun p => p.drop 12) = [[0x67], [0x68], [0x65]] ∧
     s4PipelineRun.2.map (fun p => be16 p 2) = [10, 11, 12] ∧
     s4PipelineRun.2.map (fun p => be32 p 4) = [9000, 9000, 9000] ∧
     s4PipelineRun.2.map markerBit = [false, false, true] ∧
     s4PipelineRun.1.counters.framesFlushed = 1 ∧
     s4PipelineRun.1.counters.injectedSPS = 0 ∧
     s4PipelineRun.1.counters.injectedPPS = 0 ∧
     s4PipelineRun.1.counters.seqDeltaGauge = 0) ∧
    (s4CachedRun.2.map (fun p => p.drop 12) = [[0x67], [0x68], [0x65]] ∧
     s4CachedRun.2.map (fun p => be16 p 2) = [12, 13, 14] ∧
     s4CachedRun.2.map (fun p => be32 p 4) = [9000, 9000, 9000] ∧
     s4CachedRun.2.map markerBit = [false, false, true] ∧
     s4CachedRun.1.counters.framesFlushed = 1 ∧
     s4CachedRun.1.counters.injectedSPS = 1 ∧
     s4CachedRun.1.counters.injectedPPS = 1 ∧
     s4CachedRun.1.counters.seqDeltaGauge = 2) := by
  decide

/-! Byte-level helper lemmas for the flush theorems. -/

theorem byteAt_set_ne {l : List Nat} {i j v : Nat} (h : i ≠ j) :
    byteAt (l.set i v) j = byteAt l j := by
  simp [byteAt, List.getD_eq_getElem?_getD, List.getElem?_set_ne h]

theorem byteAt_set_eq {l : List Nat} {i v : Nat} (h : i < l.length) :
    byteAt (l.set i v) i = v := by
  simp [byteAt, List.getD_eq_getElem?_getD, List.getElem?_set_eq_of_lt v h]

theorem length_putUint16BE (p : List Nat) (i v : Nat) :
    (putUint16BE p i v).length = p.length := by
  simp [putUint16BE]

theorem length_putUint32BE (p : List Nat) (i v : Nat) :
    (putUint32BE p i v).length = p.length := by
  simp [putUint32BE]

theorem setTimestamp_length (p : List Nat) (ts : Nat) :
    (setTimestamp p ts).length = p.length := by
  unfold setTimestamp; split_ifs <;> simp [length_putUint32BE]

theorem or128_and128 (x : Nat) : (x ||| 128) &&& 128 = 128 := by
  apply Nat.eq_of_testBit_eq
  intro i
  simp only [Nat.testBit_and, Nat.testBit_or]
  cases h : Nat.testBit 128 i <;> simp [h]

theorem and127_and128 (x : Nat) : (x &&& 127) &&& 128 = 0 := by
  apply Nat.eq_of_testBit_eq
  intro i
  simp only [Nat.testBit_and, Nat.zero_testBit]
  have h7 : (127 : Nat) = 2 ^ 7 - 1 := by norm_num
  have h8 : (128 : Nat) = 2 ^ 7 := by norm_num
  rw [h7, h8, Nat.testBit_two_pow_sub_one, Nat.testBit_two_pow]
  by_cases h : i < 7 <;> by_cases h2 : 7 = i <;> simp_all

theorem markerBit_setMarker (p : List Nat) (b : Bool) (h : 2 ≤ p.length) :
    markerBit (setMarker p b) = b := by
  have h1 : 1 < p.length := by omega
  unfold setMarker markerBit
  rw [if_neg (by omega)]
  cases b with
  | true => simp [byteAt_set_eq h1, or128_and128]
  | false => simp [byteAt_set_eq h1, and127_and128]

theorem markerBit_putUint16BE_2 (p : List Nat) (v : Nat) :
    markerBit (putUint16BE p 2 v) = markerBit p := by
  unfold markerBit putUint16BE
  rw [byteAt_set_ne (by omega), byteAt_set_ne (by omega)]

theorem markerBit_setTimestamp (p : List Nat) (ts : Nat) :
    markerBit (setTimestamp p ts) = markerBit p := by
  unfold setTimestamp
  split_ifs with h
  · rfl
  · unfold markerBit putUint32BE
    rw [byteAt_set_ne (by omega), byteAt_set_ne (by omega),
        byteAt_set_ne (by omega), byteAt_set_ne (by omega)]

theorem markerBit_sendPacket (s : VideoFixState) (p : List Nat) :
    markerBit (sendPacket s p).2 = markerBit p := by
  unfold sendPacket rewriteSeqForOutput
  split_ifs <;> simp [markerBit_putUint16BE_2]

theorem emitBuffered_length :
    ∀ (packets : List (List Nat)) (s : VideoFixState) (i last ts : Nat),
      ((emitBuffered s packets i last ts).2).length = packets.length := by
  intro packets
  induction packets with
  | nil => intro s i last ts; rfl
  | cons p rest ih =>
    intro s i last ts
    simp only [emitBuffered]
    simp [ih]

theorem emitBuffered_marker :
    ∀ (packets : List (List Nat)) (s : VideoFixState) (i last ts : Nat),
      (∀ p ∈ packets, 2 ≤ p.length) →
      ∀ j q, ((emitBuffered s packets i last ts).2).get? j = some q →
        markerBit q = decide (i + j = last) := by
  intro packets
  induction packets with
  | nil => intro s i last ts _ j q h; simp [emitBuffered] at h
  | cons p rest ih =>
    intro s i last ts hlen j q h
    simp only [emitBuffered] at h
    cases j with
    | zero =>
      simp only [List.get?] at h
      injection h with h
      subst h
      rw [markerBit_sendPacket, markerBit_setTimestamp,
          markerBit_setMarker _ _ (hlen p (by simp))]
      rw [Nat.add_zero]
      by_cases hil : i = last <;> simp [hil]
    | succ j =>
      simp only [List.get?] at h
      have := ih _ (i + 1) last ts (fun x hx => hlen x (by simp [hx])) j q h
      rw [this]
      have : i + 1 + j = i + (j + 1) := by omega
      rw [this]

theorem flushTSState_frameBuffer (s : VideoFixState) (now : Int) :
    (flushTSState s now).1.frameBuffer = s.frameBuffer := by
  unfold flushTSState
  split_ifs with h
  · rfl
  · unfold nextFrameTimestamp
    cases hb : s.frameTSInitialized with
    | false =>
      simp only [hb, Bool.not_false, if_pos]
      cases hp : parseRTPHeader (s.frameBuffer.headD []) <;> simp [hp]
    | true => simp [hb]

/-- C1. Fix-mode marker discipline: for every flush (natural or forced)
of a frame buffer holding N ≥ 1 packets, exactly one emitted packet has
the RTP marker bit set to 1, and it is the last packet emitted; all
earlier packets of the frame are emitted with marker = 0.  (Buffered
packets are always whole RTP packets of ≥ 12 bytes; ≥ 2 suffices for the
marker byte.) -/
theorem flush_marker_discipline (s : VideoFixState) (now : Int) (forced : Bool)
    (hne : s.frameBuffer ≠ []) (hlen : ∀ p ∈ s.frameBuffer, 2 ≤ p.length) :
    ((flushFrameBuffer s now forced).2).length = s.frameBuffer.length ∧
    ∀ j q, ((flushFrameBuffer s now forced).2).get? j = some q →
      (markerBit q = true ↔ j = s.frameBuffer.length - 1) := by
  have hbuf := flushTSState_frameBuffer s now
  unfold flushFrameBuffer
  rw [if_neg (by simpa [List.isEmpty_iff] using hne)]
  simp only [hbuf]
  constructor
  · exact emitBuffered_length _ _ _ _ _
  · intro j q h
    have hm := emitBuffered_marker s.frameBuffer _ 0 (s.frameBuffer.length - 1) _ hlen j q h
    have hj : j < s.frameBuffer.length := by
      have := List.get?_eq_some.mp h
      obtain ⟨hlt, -⟩ := this
      rwa [emitBuffered_length] at hlt
    rw [hm]
    constructor
    · intro hd
      have := of_decide_eq_true hd
      omega
    · intro hd
      apply decide_eq_true
      omega

/-- Witness for C1: flushing a two-packet frame marks only the second
packet. -/
theorem flush_marker_discipline_witness :
    (witnessFlushState.frameBuffer ≠ [] ∧
      ∀ p ∈ witnessFlushState.frameBuffer, 2 ≤ p.length) ∧
    (((flushFrameBuffer witnessFlushState 0 false).2).length =
        witnessFlushState.frameBuffer.length ∧
      ∀ j q, ((flushFrameBuffer witnessFlushState 0 false).2).get? j = some q →
        (markerBit q = true ↔ j = witnessFlushState.frameBuffer.length - 1)) :=
  ⟨⟨by decide, by decide⟩,
   flush_marker_discipline witnessFlushState 0 false (by decide) (by decide)⟩

theorem releaseOne_inv (p : PortAllocator) (port : Nat) (h : p.releaseInv) :
    (p.releaseOne port).releaseInv := by
  obtain ⟨hn, hd⟩ := h
  unfold PortAllocator.releaseOne
  split_ifs with h1 h2
  · refine ⟨hn, ?_⟩
    intro a ha hmem
    exact hd a ha (Finset.mem_of_mem_erase hmem)
  · constructor
    · have hq : port ∉ p.available := fun hmem => (hd port hmem) h1
      simp [List.nodup_append, hn, hq]
    · intro a ha hmem
      rcases List.mem_append.mp ha with ha | ha
      · exact hd a ha (Finset.mem_of_mem_erase hmem)
      · have ha2 : a = port := by simpa using ha
        subst ha2
        exact absurd hmem (Finset.not_mem_erase a p.inUse)
  · exact ⟨hn, hd⟩

theorem foldl_releaseOne_inv (ports : List Nat) :
    ∀ p : PortAllocator, p.releaseInv →
      (ports.foldl PortAllocator.releaseOne p).releaseInv := by
  induction ports with
  | nil => intro p h; exact h
  | cons q rest ih =>
    intro p h
    exact ih _ (releaseOne_inv p q h)

theorem WF_releaseInv (p : PortAllocator) (h : p.WF) : p.releaseInv :=
  ⟨h.1.nodup, h.2⟩

theorem sorted_lt_of_le_nodup {l : List Nat} (hs : l.Sorted (· ≤ ·)) (hn : l.Nodup) :
    l.Sorted (· < ·) :=
  (hs.and hn).imp fun h => lt_of_le_of_ne h.1 h.2

theorem Release_WF (p : PortAllocator) (ports : List Nat) (hwf : p.WF) :
    (p.Release ports).WF := by
  have hinv := foldl_releaseOne_inv ports p (WF_releaseInv p hwf)
  unfold PortAllocator.Release
  set mid := ports.foldl PortAllocator.releaseOne p with hmid
  have hsorted : (List.insertionSort (· ≤ ·) mid.available).Sorted (· ≤ ·) :=
    List.sorted_insertionSort _ _
  have hperm : (List.insertionSort (· ≤ ·) mid.available).Perm mid.available :=
    List.perm_insertionSort _ _
  have hnodup : (List.insertionSort (· ≤ ·) mid.available).Nodup :=
    hperm.nodup_iff.mpr hinv.1
  refine ⟨sorted_lt_of_le_nodup hsorted hnodup, ?_⟩
  intro a ha
  exact hinv.2 a (hperm.mem_iff.mp ha)

/-- `NewPortAllocator` establishes the well-formedness the allocator
theorem assumes. -/
theorem NewPortAllocator_WF (minPort maxPort : Int) (p : PortAllocator)
    (h : NewPortAllocator minPort maxPort = some p) : p.WF := by
  unfold NewPortAllocator at h
  split_ifs at h
  injection h with h
  subst h
  constructor
  · exact List.pairwise_lt_range' _ _
  · intro a _ hmem
    simp at hmem

/-- `Allocate` preserves the allocator well-formedness. -/
theorem Allocate_WF (p : PortAllocator) (hwf : p.WF) (n : Int)
    (ports : List Nat) (p2 : PortAllocator) (h : p.Allocate n = .ok (ports, p2)) :
    p2.WF := by
  unfold PortAllocator.Allocate at h
  split_ifs at h
  injection h with h
  have h2 := congrArg Prod.snd h
  simp only [] at h2
  have hava : p2.available = p.available.drop n.toNat := by rw [← h2]
  have hinu : p2.inUse = p.inUse ∪ (p.available.take n.toNat).toFinset := by rw [← h2]
  constructor
  · rw [hava]
    exact hwf.1.sublist (List.drop_sublist _ _)
  · intro a ha hmem
    rw [hava] at ha
    rw [hinu] at hmem
    rcases Finset.mem_union.mp hmem with hmem | hmem
    · exact hwf.2 a (List.drop_subset _ _ ha) hmem
    · have hat : a ∈ p.available.take n.toNat := by simpa using hmem
      have hcross : (p.available.take n.toNat ++ p.available.drop n.toNat).Pairwise (· < ·) := by
        rw [List.take_append_drop]
        exact hwf.1
      have := (List.pairwise_append.mp hcross).2.2 a hat a ha
      omega

/-- C6. Port allocator smallest-first discipline: on every well-formed
allocator state (ascending duplicate-free available list, disjoint from
in-use — established at construction and preserved by both operations),
Allocate(n) with n ≥ 1 and enough ports returns the n smallest available
ports in ascending order (they precede every remaining available port
and the returned-plus-remaining split reassembles the old list) and
moves them to in-use; it fails for n ≤ 0 and fails with NoPortsAvailable
when n exceeds the number of available ports; after Release of an
in-use, in-range port, the next Allocate(1) returns the smallest
available port, which equals the released port whenever it is the
smallest in the pool; Release is a no-op for already-released ports and
preserves well-formedness (so it never creates duplicate available
ports). -/
theorem allocator_smallest_first (p : PortAllocator) (hwf : p.WF) :
    (∀ n : Int, n ≤ 0 → p.Allocate n = .error .invalidRequest) ∧
    (∀ n : Int, 0 < n → (p.available.length : Int) < n →
      p.Allocate n = .error .noPortsAvailable) ∧
    (∀ n : Int, 0 < n → n ≤ (p.available.length : Int) →
      ∃ ports p2, p.Allocate n = .ok (ports, p2) ∧
        ports.length = n.toNat ∧
        ports.Sorted (· < ·) ∧
        (∀ a ∈ ports, a ∈ p.available) ∧
        (∀ a ∈ ports, ∀ b ∈ p2.available, a < b) ∧
        ports ++ p2.available = p.available ∧
        p2.inUse = p.inUse ∪ ports.toFinset) ∧
    (∀ q, q ∈ p.inUse → p.min ≤ q → q ≤ p.max →
      ∃ x p2, (p.Release [q]).Allocate 1 = .ok ([x], p2) ∧
        x ∈ q :: p.available ∧ (∀ y ∈ q :: p.available, x ≤ y) ∧
        ((∀ y ∈ p.available, q ≤ y) → x = q)) ∧
    (∀ q, q ∉ p.inUse → p.Release [q] = p) ∧
    (∀ ports, (p.Release ports).WF) := by
  refine ⟨?_, ?_, ?_, ?_, ?_, fun ports => Release_WF p ports hwf⟩
  · intro n hn
    unfold PortAllocator.Allocate
    rw [if_pos hn]
  · intro n hn hlen
    unfold PortAllocator.Allocate
    rw [if_neg (by omega), if_pos hlen]
  · intro n hn hlen
    refine ⟨p.available.take n.toNat,
      { p with available := p.available.drop n.toNat,
               inUse := p.inUse ∪ (p.available.take n.toNat).toFinset },
      ?_, ?_, ?_, ?_, ?_, ?_, rfl⟩
    · unfold PortAllocator.Allocate
      rw [if_neg (by omega), if_neg (by omega)]
    · rw [List.length_take]
      omega
    · exact hwf.1.sublist (List.take_sublist _ _)
    · exact fun a ha => List.take_subset _ _ ha
    · have hp : (p.available.take n.toNat ++ p.available.drop n.toNat).Pairwise (· < ·) := by
        rw [List.take_append_drop]
        exact hwf.1
      exact (List.pairwise_append.mp hp).2.2
    · exact List.take_append_drop _ _
  · intro q hq hmin hmax
    have hrel : p.Release [q] =
        { p with available := List.insertionSort (· ≤ ·) (p.available ++ [q])
                 inUse := p.inUse.erase q } := by
      unfold PortAllocator.Release
      simp only [List.foldl_cons, List.foldl_nil]
      unfold PortAllocator.releaseOne
      rw [if_neg (by simpa using hq), if_neg (by push_neg; omega)]
    set sortedA := List.insertionSort (· ≤ ·) (p.available ++ [q]) with hsa
    have hperm : sortedA.Perm (p.available ++ [q]) := List.perm_insertionSort _ _
    have hsorted : sortedA.Sorted (· ≤ ·) := List.sorted_insertionSort _ _
    have hne : sortedA ≠ [] := by
      intro h0
      have := hperm.length_eq
      rw [h0] at this
      simp at this
    obtain ⟨x, rest, hxr⟩ := List.exists_cons_of_ne_nil hne
    have hxmem : x ∈ p.available ++ [q] := hperm.mem_iff.mp (by simp [hxr])
    have hxle : ∀ y ∈ p.available ++ [q], x ≤ y := by
      intro y hy
      have hy2 : y ∈ sortedA := hperm.mem_iff.mpr hy
      rw [hxr] at hy2 hsorted
      rcases List.mem_cons.mp hy2 with hy2 | hy2
      · omega
      · exact (List.sorted_cons.mp hsorted).1 y hy2
    refine ⟨x, { min := p.min, max := p.max, available := rest,
                 inUse := p.inUse.erase q ∪ ([x] : List Nat).toFinset },
      ?_, ?_, ?_, ?_⟩
    · rw [hrel]
      unfold PortAllocator.Allocate
      rw [if_neg (by omega), if_neg (by rw [hxr]; simp)]
      rw [hxr]
      rfl
    · rcases List.mem_append.mp hxmem with h | h
      · exact List.mem_cons_of_mem _ h
      · simp at h
        simp [h]
    · intro y hy
      rcases List.mem_cons.mp hy with hy | hy
      · exact hxle y (by simp [hy])
      · exact hxle y (by simp [hy])
    · intro hsmall
      rcases List.mem_append.mp hxmem with h | h
      · have h1 := hsmall x h
        have h2 := hxle q (by simp)
        omega
      · simpa using h
  · intro q hq
    unfold PortAllocator.Release
    simp only [List.foldl_cons, List.foldl_nil]
    unfold PortAllocator.releaseOne
    rw [if_pos hq]
    have : List.insertionSort (· ≤ ·) p.available = p.available :=
      List.Sorted.insertionSort_eq (hwf.1.imp fun h => le_of_lt h)
    rw [this]

/-- Witness for C6 on the spec's S5 allocator range [10000..10002] with
10001 in use: invalid request, exhaustion and release-reuse. -/
theorem allocator_smallest_first_witness :
    witnessAllocator.WF ∧
    witnessAllocator.Allocate 0 = .error .invalidRequest ∧
    witnessAllocator.Allocate 3 = .error .noPortsAvailable ∧
    ∃ x p2,
      (witnessAllocator.Release [10001]).Allocate 1 = .ok ([x], p2) ∧
      x ∈ (10001 : Nat) :: witnessAllocator.available ∧
      (∀ y ∈ (10001 : Nat) :: witnessAllocator.available, x ≤ y) ∧
      ((∀ y ∈ witnessAllocator.available, (10001 : Nat) ≤ y) → x = 10001) := by
  have hwf : witnessAllocator.WF := by
    constructor
    · decide
    · decide
  refine ⟨hwf, ?_, ?_, ?_⟩
  · exact (allocator_smallest_first _ hwf).1 0 (by omega)
  · exact (allocator_smallest_first _ hwf).2.1 3 (by omega) (by decide)
  · exact (allocator_smallest_first _ hwf).2.2.2.1 10001 (by decide) (by decide) (by decide)

end RtpCleaner
